import Mathlib

/-!
Verification of the media-playback abstraction core of this repository:
the exact rational arithmetic, rectangle fitting, state enumerations and
the observer fan-out (`ClientList`) described in the design document.

The `Rational` arithmetic is embedded from the template
`shaka::Rational<T>` in `src/thirdparty/include/shaka/ShakaPlayerView.h`
(lines 142-247).  The repository instantiates it at `T = uint32_t`
(see `FitVideoToRegion`), so machine integers are modelled as `Nat`
bounded by `uint32Max`, and each C++ `assert` is modelled by returning
`none` (an assertion failure crashes; it never produces a value).
-/

namespace Shaka

/-- Value type `Rational<T> { T numerator; T denominator; }`. -/
structure Rational where
  numerator : Nat
  denominator : Nat
deriving DecidableEq, Repr

/-- The Euclidean loop of `Rational::gcd`: `while (b != 0) { T temp = a % b; a = b; b = temp; } return a;`.
The loop is embedded with an explicit fuel argument; `b` strictly decreases on
every iteration, so fuel `b + 1` always suffices (`gcd_eq_natGcd`). -/
def gcdLoop : Nat → Nat → Nat → Nat
  | 0, a, _ => a
  | fuel + 1, a, b => if b = 0 then a else gcdLoop fuel b (a % b)

/-- `Rational::gcd(a, b)` from ShakaPlayerView.h lines 151-159. -/
def gcd (a b : Nat) : Nat := gcdLoop (b + 1) a b

/-- `Rational::reduce(&num, &den)` from ShakaPlayerView.h lines 161-166:
divides both numbers by their gcd. -/
def reduce (num den : Nat) : Nat × Nat :=
  let a := gcd num den
  (num / a, den / a)

/-- `std::numeric_limits<uint32_t>::max()`, the instantiation used by this
repository (`Rational<uint32_t>` in `FitVideoToRegion`). -/
def uint32Max : Nat := 4294967295

/-- The private constructor `Rational(T num1, T num2, T den1, T den2)` from
ShakaPlayerView.h lines 174-195, producing `(num1 * num2) / (den1 * den2)`.
A zero argument short-circuits to the canonical zero `{0,0}` before any
reduction.  Otherwise each numerator is reduced against each denominator in
the source's order, and the three `assert`s (the two overflow guards
`max / num1 >= num2`, `max / den1 >= den2`, and the final
`gcd(numerator, denominator) == 1`) are modelled by returning `none` when
they would fail. -/
def mkRational (num1 num2 den1 den2 : Nat) : Option Rational :=
  if num1 = 0 ∨ num2 = 0 ∨ den1 = 0 ∨ den2 = 0 then
    some ⟨0, 0⟩
  else
    let r1 := reduce num1 den1
    let r2 := reduce r1.1 den2
    let r3 := reduce num2 r1.2
    let r4 := reduce r3.1 r2.2
    if r4.1 ≤ uint32Max / r2.1 ∧ r4.2 ≤ uint32Max / r3.2 then
      if gcd (r2.1 * r4.1) (r3.2 * r4.2) = 1 then
        some ⟨r2.1 * r4.1, r3.2 * r4.2⟩
      else none
    else none

/-- The public constructor `Rational(T num, T den) : Rational(num, 1, den, 1)`
(ShakaPlayerView.h line 199). -/
def rationalCtor (num den : Nat) : Option Rational := mkRational num 1 den 1

/-- `operator*(const Rational<U>& other)` (lines 225-228):
`{numerator, other.numerator, denominator, other.denominator}`. -/
def Rational.mul (a b : Rational) : Option Rational :=
  mkRational a.numerator b.numerator a.denominator b.denominator

/-- `operator/(const Rational<U>& other)` (lines 235-238):
`{numerator, other.denominator, denominator, other.numerator}`. -/
def Rational.div (a b : Rational) : Option Rational :=
  mkRational a.numerator b.denominator a.denominator b.numerator

/-- `Rational::inverse()` (lines 204-206): `return {denominator, numerator};`.
`Rational` has user-provided constructors, so the braced initializer invokes
the reducing two-argument constructor. -/
def Rational.inverse (r : Rational) : Option Rational :=
  rationalCtor r.denominator r.numerator

/-- `Rational::truncate()` (lines 201-203): `return numerator / denominator;`
with no guard on the denominator; division by zero is undefined behaviour for
the C++ integer type and is modelled as `none`. -/
def Rational.truncate (r : Rational) : Option Nat :=
  if r.denominator = 0 then none else some (r.numerator / r.denominator)

/-- `operator==` (lines 215-218): component-wise comparison. -/
def Rational.eqOp (a b : Rational) : Bool :=
  a.numerator == b.numerator && a.denominator == b.denominator

/-- The four sequential reductions performed by the private constructor on its
way to the final residues: returns `((num1, num2), (den1, den2))` after
`reduce(&num1,&den1); reduce(&num1,&den2); reduce(&num2,&den1); reduce(&num2,&den2)`. -/
def reduceBeforeMultiply (num1 num2 den1 den2 : Nat) : (Nat × Nat) × (Nat × Nat) :=
  let r1 := reduce num1 den1
  let r2 := reduce r1.1 den2
  let r3 := reduce num2 r1.2
  let r4 := reduce r3.1 r2.2
  ((r2.1, r4.1), (r3.2, r4.2))

/-- The multiplication procedure exactly as the specification words it for
`(a/b) * (c/d)`: "first reduce `gcd(a,c)`, `gcd(a,d)`, `gcd(b,c)`, `gcd(b,d)`
pairwise, then multiply the remaining coprime residues" to form the
numerator (from the residues of `a` and `c`) and the denominator (from the
residues of `b` and `d`).  This definition follows the specification's words,
to be compared against the source's `operator*`. -/
def specLiteralMul (a b c d : Nat) : Nat × Nat :=
  let p1 := reduce a c
  let p2 := reduce p1.1 d
  let p3 := reduce b p1.2
  let p4 := reduce p3.1 p2.2
  (p2.1 * p3.2, p4.1 * p4.2)

/-- `enum class VideoFillMode` from the utils header (lines 89-108). -/
inductive VideoFillMode where
  | MaintainRatio
  | Stretch
  | Zoom
deriving DecidableEq, Repr

/-- `ShakaRect<T> { T x; T y; T w; T h; }` from the utils header
(lines 115-128), instantiated at `T = uint32_t` as in `FitVideoToRegion`. -/
structure ShakaRect where
  x : Nat
  y : Nat
  w : Nat
  h : Nat
deriving DecidableEq, Repr

/-- Modelled from the spec: the body of `shaka::FitVideoToRegion` is not under
src/ (the header only declares it, ShakaPlayerView.h lines 289-293), so its
semantics are taken from design section 4.2: a `(0,0)` sample aspect ratio is
treated as `(1,1)`; the display aspect ratio is
`frame.w * sample_aspect_ratio / frame.h`; `Stretch` uses `dest = bounds` and
`src = frame`; `MaintainRatio` letterboxes `dest` inside `bounds` centered,
keeping `src = frame`; `Zoom` uses `dest = bounds` and crops `src`
symmetrically about the source center.  Returns `(src, dest)`. -/
def FitVideoToRegion (frame bounds : ShakaRect) (sample_aspect_ratio : Rational)
    (mode : VideoFillMode) : ShakaRect × ShakaRect :=
  let sar :=
    if sample_aspect_ratio.numerator = 0 ∨ sample_aspect_ratio.denominator = 0 then
      Rational.mk 1 1
    else sample_aspect_ratio
  let darN := frame.w * sar.numerator
  let darD := frame.h * sar.denominator
  match mode with
  | VideoFillMode.Stretch => (frame, bounds)
  | VideoFillMode.MaintainRatio =>
    if bounds.w * darD ≤ bounds.h * darN then
      let dh := if darN = 0 then 0 else bounds.w * darD / darN
      (frame, ⟨bounds.x, bounds.y + (bounds.h - dh) / 2, bounds.w, dh⟩)
    else
      let dw := if darD = 0 then 0 else bounds.h * darN / darD
      (frame, ⟨bounds.x + (bounds.w - dw) / 2, bounds.y, dw, bounds.h⟩)
  | VideoFillMode.Zoom =>
    if bounds.w * darD ≤ bounds.h * darN then
      let sw := if bounds.h * sar.numerator = 0 then 0
        else bounds.w * frame.h * sar.denominator / (bounds.h * sar.numerator)
      (⟨frame.x + (frame.w - sw) / 2, frame.y, sw, frame.h⟩, bounds)
    else
      let sh := if bounds.w * sar.denominator = 0 then 0
        else bounds.h * frame.w * sar.numerator / (bounds.w * sar.denominator)
      (⟨frame.x, frame.y + (frame.h - sh) / 2, frame.w, sh⟩, bounds)

namespace media

/-- `enum class VideoReadyState : int8_t` from the MediaPlayer header
(lines 48-78). -/
inductive VideoReadyState where
  | NotAttached
  | HaveNothing
  | HaveMetadata
  | HaveCurrentData
  | HaveFutureData
  | HaveEnoughData
deriving DecidableEq, Repr

/-- The underlying `int8_t` value of each `VideoReadyState` enumerator. -/
def VideoReadyState.toInt : VideoReadyState → Int
  | VideoReadyState.NotAttached => -1
  | VideoReadyState.HaveNothing => 0
  | VideoReadyState.HaveMetadata => 1
  | VideoReadyState.HaveCurrentData => 2
  | VideoReadyState.HaveFutureData => 3
  | VideoReadyState.HaveEnoughData => 4

/-- Modelled from the spec: `MediaPlayer::ClientList` only has its class
declaration under src/ (MediaPlayer header lines 311-343); the implementation
class `ClientList::Impl` is elsewhere.  Design section 4.4 specifies a
de-duplicated, insertion-ordered collection of client pointers, so the
registered set is modelled as a list of client identities in registration
order.  `AddClient` on an already-registered client is a no-op, otherwise it
appends. -/
def AddClient (l : List Nat) (c : Nat) : List Nat :=
  if c ∈ l then l else l ++ [c]

/-- Modelled from the spec: `RemoveClient` removes the client's (single)
registration; removing an unregistered client is a no-op. -/
def RemoveClient (l : List Nat) (c : Nat) : List Nat := l.erase c

/-- Modelled from the spec: every `On*` method of `ClientList` fans the event
out synchronously to each registered client in registration order, exactly
once per event; the delivery sequence of one fired event is therefore the
registered list itself. -/
def fireEvent (l : List Nat) : List Nat := l

/-- One call in a sequence of `AddClient`/`RemoveClient` operations. -/
inductive ClientOp where
  | add (c : Nat)
  | remove (c : Nat)
deriving DecidableEq, Repr

def applyOp (l : List Nat) : ClientOp → List Nat
  | ClientOp.add c => AddClient l c
  | ClientOp.remove c => RemoveClient l c

/-- The registered set after running a sequence of calls on a fresh
`ClientList`. -/
def clientsAfter (ops : List ClientOp) : List Nat := ops.foldl applyOp []

/-- A concrete call sequence: add 1, add 2, re-add 1, add 3, remove 2. -/
def demoOps : List ClientOp :=
  [ClientOp.add 1, ClientOp.add 2, ClientOp.add 1, ClientOp.add 3, ClientOp.remove 2]

end media

/-! ## Theorems -/

theorem Rational.ext (a b : Rational) (h1 : a.numerator = b.numerator)
    (h2 : a.denominator = b.denominator) : a = b := by
  cases a
  cases b
  simp_all

theorem gcdLoop_eq (fuel a b : Nat) (h : b < fuel) : gcdLoop fuel a b = Nat.gcd a b := by
  induction fuel generalizing a b with
  | zero => omega
  | succ n ih =>
    simp only [gcdLoop]
    split
    · rename_i hb
      subst hb
      exact (Nat.gcd_zero_right a).symm
    · rename_i hb
      rw [ih b (a % b) (by
        have := Nat.mod_lt a (Nat.pos_of_ne_zero hb)
        omega)]
      rw [Nat.gcd_comm b (a % b), ← Nat.gcd_rec b a, Nat.gcd_comm]

theorem gcd_eq_natGcd (a b : Nat) : gcd a b = Nat.gcd a b :=
  gcdLoop_eq (b + 1) a b (Nat.lt_succ_self b)

theorem reduce_factor (num den : Nat) (hn : num ≠ 0) (hd : den ≠ 0) :
    ∃ g, g ≠ 0 ∧ num = (reduce num den).1 * g ∧ den = (reduce num den).2 * g ∧
      (reduce num den).1 ≠ 0 ∧ (reduce num den).2 ≠ 0 ∧
      Nat.Coprime (reduce num den).1 (reduce num den).2 := by
  have hred : reduce num den = (num / Nat.gcd num den, den / Nat.gcd num den) := by
    simp only [reduce, gcd_eq_natGcd]
  have hgpos : 0 < Nat.gcd num den :=
    Nat.gcd_pos_of_pos_left den (Nat.pos_of_ne_zero hn)
  refine ⟨Nat.gcd num den, Nat.pos_iff_ne_zero.mp hgpos, ?_, ?_, ?_, ?_, ?_⟩
  · rw [hred]
    exact (Nat.div_mul_cancel (Nat.gcd_dvd_left num den)).symm
  · rw [hred]
    exact (Nat.div_mul_cancel (Nat.gcd_dvd_right num den)).symm
  · rw [hred]
    have := Nat.div_pos (Nat.le_of_dvd (Nat.pos_of_ne_zero hn) (Nat.gcd_dvd_left num den)) hgpos
    omega
  · rw [hred]
    have := Nat.div_pos (Nat.le_of_dvd (Nat.pos_of_ne_zero hd) (Nat.gcd_dvd_right num den)) hgpos
    omega
  · rw [hred]
    exact Nat.coprime_div_gcd_div_gcd hgpos

theorem reduceBeforeMultiply_spec (num1 num2 den1 den2 : Nat)
    (h1 : num1 ≠ 0) (h2 : num2 ≠ 0) (h3 : den1 ≠ 0) (h4 : den2 ≠ 0) :
    ∃ k, k ≠ 0 ∧
      num1 * num2 =
        (reduceBeforeMultiply num1 num2 den1 den2).1.1 *
          (reduceBeforeMultiply num1 num2 den1 den2).1.2 * k ∧
      den1 * den2 =
        (reduceBeforeMultiply num1 num2 den1 den2).2.1 *
          (reduceBeforeMultiply num1 num2 den1 den2).2.2 * k ∧
      (reduceBeforeMultiply num1 num2 den1 den2).1.1 ≠ 0 ∧
      (reduceBeforeMultiply num1 num2 den1 den2).1.2 ≠ 0 ∧
      (reduceBeforeMultiply num1 num2 den1 den2).2.1 ≠ 0 ∧
      (reduceBeforeMultiply num1 num2 den1 den2).2.2 ≠ 0 ∧
      Nat.Coprime (reduceBeforeMultiply num1 num2 den1 den2).1.1
        (reduceBeforeMultiply num1 num2 den1 den2).2.1 ∧
      Nat.Coprime (reduceBeforeMultiply num1 num2 den1 den2).1.1
        (reduceBeforeMultiply num1 num2 den1 den2).2.2 ∧
      Nat.Coprime (reduceBeforeMultiply num1 num2 den1 den2).1.2
        (reduceBeforeMultiply num1 num2 den1 den2).2.1 ∧
      Nat.Coprime (reduceBeforeMultiply num1 num2 den1 den2).1.2
        (reduceBeforeMultiply num1 num2 den1 den2).2.2 ∧
      Nat.Coprime
        ((reduceBeforeMultiply num1 num2 den1 den2).1.1 *
          (reduceBeforeMultiply num1 num2 den1 den2).1.2)
        ((reduceBeforeMultiply num1 num2 den1 den2).2.1 *
          (reduceBeforeMultiply num1 num2 den1 den2).2.2) := by
  obtain ⟨g1, hg1, e1n, e1d, hn1, hd1, c1⟩ := reduce_factor num1 den1 h1 h3
  obtain ⟨g2, hg2, e2n, e2d, hn2, hd2, c2⟩ :=
    reduce_factor (reduce num1 den1).1 den2 hn1 h4
  obtain ⟨g3, hg3, e3n, e3d, hn3, hd3, c3⟩ :=
    reduce_factor num2 (reduce num1 den1).2 h2 hd1
  obtain ⟨g4, hg4, e4n, e4d, hn4, hd4, c4⟩ :=
    reduce_factor (reduce num2 (reduce num1 den1).2).1
      (reduce (reduce num1 den1).1 den2).2 hn3 hd2
  have hq : reduceBeforeMultiply num1 num2 den1 den2 =
      (((reduce (reduce num1 den1).1 den2).1,
        (reduce (reduce num2 (reduce num1 den1).2).1
          (reduce (reduce num1 den1).1 den2).2).1),
       ((reduce num2 (reduce num1 den1).2).2,
        (reduce (reduce num2 (reduce num1 den1).2).1
          (reduce (reduce num1 den1).1 den2).2).2)) := rfl
  rw [hq]
  have dv2 : (reduce (reduce num1 den1).1 den2).1 ∣ (reduce num1 den1).1 := ⟨g2, e2n⟩
  have dv3 : (reduce num2 (reduce num1 den1).2).2 ∣ (reduce num1 den1).2 := ⟨g3, e3d⟩
  have dv4n : (reduce (reduce num2 (reduce num1 den1).2).1
      (reduce (reduce num1 den1).1 den2).2).1 ∣ (reduce num2 (reduce num1 den1).2).1 :=
    ⟨g4, e4n⟩
  have dv4d : (reduce (reduce num2 (reduce num1 den1).2).1
      (reduce (reduce num1 den1).1 den2).2).2 ∣ (reduce (reduce num1 den1).1 den2).2 :=
    ⟨g4, e4d⟩
  have cp11 : Nat.Coprime (reduce (reduce num1 den1).1 den2).1
      (reduce num2 (reduce num1 den1).2).2 :=
    Nat.Coprime.coprime_dvd_right dv3 (Nat.Coprime.coprime_dvd_left dv2 c1)
  have cp12 : Nat.Coprime (reduce (reduce num1 den1).1 den2).1
      (reduce (reduce num2 (reduce num1 den1).2).1
        (reduce (reduce num1 den1).1 den2).2).2 :=
    Nat.Coprime.coprime_dvd_right dv4d c2
  have cp21 : Nat.Coprime (reduce (reduce num2 (reduce num1 den1).2).1
      (reduce (reduce num1 den1).1 den2).2).1 (reduce num2 (reduce num1 den1).2).2 :=
    Nat.Coprime.coprime_dvd_left dv4n c3
  refine ⟨g1 * g2 * g3 * g4, by positivity, ?_, ?_, hn2, hn4, hd3, hd4,
    cp11, cp12, cp21, c4, ?_⟩
  · conv_lhs => rw [e1n, e3n]
    conv_lhs => rw [e2n, e4n]
    ring
  · conv_lhs => rw [e1d, e2d]
    conv_lhs => rw [e3d, e4d]
    ring
  · exact Nat.Coprime.mul (Nat.Coprime.mul_right cp11 cp12)
      (Nat.Coprime.mul_right cp21 c4)

theorem reduce_one_right (x : Nat) : reduce x 1 = (x, 1) := by
  simp [reduce, gcd_eq_natGcd, Nat.gcd_one_right]

theorem reduce_one_left (y : Nat) : reduce 1 y = (1, y) := by
  simp [reduce, gcd_eq_natGcd, Nat.gcd_one_left]

theorem mkRational_def (num1 num2 den1 den2 : Nat) :
    mkRational num1 num2 den1 den2 =
      if num1 = 0 ∨ num2 = 0 ∨ den1 = 0 ∨ den2 = 0 then
        some ⟨0, 0⟩
      else
        if (reduceBeforeMultiply num1 num2 den1 den2).1.2 ≤
              uint32Max / (reduceBeforeMultiply num1 num2 den1 den2).1.1 ∧
            (reduceBeforeMultiply num1 num2 den1 den2).2.2 ≤
              uint32Max / (reduceBeforeMultiply num1 num2 den1 den2).2.1 then
          if gcd
              ((reduceBeforeMultiply num1 num2 den1 den2).1.1 *
                (reduceBeforeMultiply num1 num2 den1 den2).1.2)
              ((reduceBeforeMultiply num1 num2 den1 den2).2.1 *
                (reduceBeforeMultiply num1 num2 den1 den2).2.2) = 1 then
            some ⟨(reduceBeforeMultiply num1 num2 den1 den2).1.1 *
                    (reduceBeforeMultiply num1 num2 den1 den2).1.2,
                  (reduceBeforeMultiply num1 num2 den1 den2).2.1 *
                    (reduceBeforeMultiply num1 num2 den1 den2).2.2⟩
          else none
        else none := rfl

theorem mkRational_zero (num1 num2 den1 den2 : Nat)
    (h : num1 = 0 ∨ num2 = 0 ∨ den1 = 0 ∨ den2 = 0) :
    mkRational num1 num2 den1 den2 = some ⟨0, 0⟩ := by
  rw [mkRational_def, if_pos h]

theorem mkRational_some (num1 num2 den1 den2 : Nat)
    (h1 : num1 ≠ 0) (h2 : num2 ≠ 0) (h3 : den1 ≠ 0) (h4 : den2 ≠ 0)
    (hovN : (reduceBeforeMultiply num1 num2 den1 den2).1.1 *
        (reduceBeforeMultiply num1 num2 den1 den2).1.2 ≤ uint32Max)
    (hovD : (reduceBeforeMultiply num1 num2 den1 den2).2.1 *
        (reduceBeforeMultiply num1 num2 den1 den2).2.2 ≤ uint32Max) :
    mkRational num1 num2 den1 den2 =
      some ⟨(reduceBeforeMultiply num1 num2 den1 den2).1.1 *
              (reduceBeforeMultiply num1 num2 den1 den2).1.2,
            (reduceBeforeMultiply num1 num2 den1 den2).2.1 *
              (reduceBeforeMultiply num1 num2 den1 den2).2.2⟩ := by
  obtain ⟨k, hk, hn, hd, hN1, hN2, hD1, hD2, cp11, cp12, cp21, cp22, cptot⟩ :=
    reduceBeforeMultiply_spec num1 num2 den1 den2 h1 h2 h3 h4
  rw [mkRational_def, if_neg (by simp [h1, h2, h3, h4])]
  rw [if_pos ?_, if_pos ?_]
  · rw [gcd_eq_natGcd]
    exact cptot
  · constructor
    · rw [Nat.le_div_iff_mul_le (Nat.pos_of_ne_zero hN1)]
      rw [Nat.mul_comm]
      exact hovN
    · rw [Nat.le_div_iff_mul_le (Nat.pos_of_ne_zero hD1)]
      rw [Nat.mul_comm]
      exact hovD

theorem mkRational_factor (num1 num2 den1 den2 : Nat)
    (h1 : num1 ≠ 0) (h2 : num2 ≠ 0) (h3 : den1 ≠ 0) (h4 : den2 ≠ 0)
    (r : Rational) (hr : mkRational num1 num2 den1 den2 = some r) :
    ∃ k, k ≠ 0 ∧ num1 * num2 = r.numerator * k ∧ den1 * den2 = r.denominator * k ∧
      r.numerator ≠ 0 ∧ r.denominator ≠ 0 ∧
      Nat.Coprime r.numerator r.denominator := by
  obtain ⟨k, hk, hn, hd, hN1, hN2, hD1, hD2, cp11, cp12, cp21, cp22, cptot⟩ :=
    reduceBeforeMultiply_spec num1 num2 den1 den2 h1 h2 h3 h4
  rw [mkRational_def, if_neg (by simp [h1, h2, h3, h4])] at hr
  split at hr
  · split at hr
    · obtain rfl : (⟨(reduceBeforeMultiply num1 num2 den1 den2).1.1 *
          (reduceBeforeMultiply num1 num2 den1 den2).1.2,
          (reduceBeforeMultiply num1 num2 den1 den2).2.1 *
          (reduceBeforeMultiply num1 num2 den1 den2).2.2⟩ : Rational) = r :=
        Option.some.inj hr
      exact ⟨k, hk, hn, hd, by positivity, by positivity, cptot⟩
    · exact absurd hr (by simp)
  · exact absurd hr (by simp)

theorem mkRational_inv (num1 num2 den1 den2 : Nat) (r : Rational)
    (hr : mkRational num1 num2 den1 den2 = some r) :
    Nat.gcd r.numerator r.denominator = 1 ∨ (r.numerator = 0 ∧ r.denominator = 0) := by
  rw [mkRational_def] at hr
  split at hr
  · obtain rfl : (⟨0, 0⟩ : Rational) = r := Option.some.inj hr
    exact Or.inr ⟨rfl, rfl⟩
  · split at hr
    · split at hr
      · rename_i hg
        obtain rfl := Option.some.inj hr
        left
        rw [gcd_eq_natGcd] at hg
        exact hg
      · exact absurd hr (by simp)
    · exact absurd hr (by simp)

theorem reduceBeforeMultiply_ctor (n d : Nat) :
    reduceBeforeMultiply n 1 d 1 =
      ((n / Nat.gcd n d, 1), (d / Nat.gcd n d, 1)) := by
  simp [reduceBeforeMultiply, reduce_one_right, reduce_one_left, reduce, gcd_eq_natGcd]

theorem rationalCtor_eq (n d : Nat) (hn : n ≠ 0) (hd : d ≠ 0)
    (hbn : n ≤ uint32Max) (hbd : d ≤ uint32Max) :
    rationalCtor n d = some ⟨n / Nat.gcd n d, d / Nat.gcd n d⟩ := by
  have h := mkRational_some n 1 d 1 hn one_ne_zero hd one_ne_zero
    (by rw [reduceBeforeMultiply_ctor]; simpa using le_trans (Nat.div_le_self n _) hbn)
    (by rw [reduceBeforeMultiply_ctor]; simpa using le_trans (Nat.div_le_self d _) hbd)
  rw [reduceBeforeMultiply_ctor] at h
  simpa [rationalCtor] using h

namespace media

theorem applyOp_nodup (l : List Nat) (op : ClientOp) (h : l.Nodup) :
    (applyOp l op).Nodup := by
  cases op with
  | add c =>
    simp only [applyOp, AddClient]
    split
    · exact h
    · rename_i hc
      simp [List.nodup_append, h, List.disjoint_singleton, hc]
  | remove c =>
    exact List.Nodup.erase c h

theorem foldl_applyOp_nodup (ops : List ClientOp) :
    ∀ l : List Nat, l.Nodup → (ops.foldl applyOp l).Nodup := by
  induction ops with
  | nil => exact fun l h => h
  | cons op ops ih =>
    intro l h
    exact ih (applyOp l op) (applyOp_nodup l op h)

end media

/-! ## Claim theorems -/

/-- C1: every `Rational` value produced by the public constructor
`Rational(num, den)` or by the multiplication/division operators either
satisfies `gcd(numerator, denominator) == 1` (reduced form) or is the
canonical zero `{0,0}` with both fields zero. -/
theorem constructed_rationals_reduced :
    ∀ r : Rational,
      ((∃ num den, rationalCtor num den = some r) ∨
       (∃ a b, Rational.mul a b = some r) ∨
       (∃ a b, Rational.div a b = some r)) →
      Nat.gcd r.numerator r.denominator = 1 ∨
        (r.numerator = 0 ∧ r.denominator = 0) := by
  rintro r (⟨num, den, h⟩ | ⟨a, b, h⟩ | ⟨a, b, h⟩)
  · exact mkRational_inv num 1 den 1 r h
  · exact mkRational_inv _ _ _ _ r h
  · exact mkRational_inv _ _ _ _ r h

/-- Witness for C1: Rational(6, 4) constructs 3/2, which is reduced. -/
theorem constructed_rationals_reduced_witness :
    Nat.gcd (3 : Nat) 2 = 1 ∨ ((3 : Nat) = 0 ∧ (2 : Nat) = 0) :=
  constructed_rationals_reduced ⟨3, 2⟩ (Or.inl ⟨6, 4, by decide⟩)

/-- C2 (counterexample): the claim's literal pairwise reduction of
`gcd(a,c)`, `gcd(a,d)`, `gcd(b,c)`, `gcd(b,d)` for `(a/b) * (c/d)` yields
`1/15` at `(2/3) * (2/5)`, while the source's `operator*` (which reduces
`gcd(a,b)`, `gcd(a,d)`, `gcd(c,b)`, `gcd(c,d)`, each numerator against each
denominator) yields `4/15`; so multiplication does not compute by the
claimed pair list. -/
theorem mul_literal_pairwise_counterexample :
    Rational.mul ⟨2, 3⟩ ⟨2, 5⟩ = some ⟨4, 15⟩ ∧
    specLiteralMul 2 3 2 5 = (1, 15) ∧
    ((4, 15) : Nat × Nat) ≠ (1, 15) := by decide

/-- C2 (amended): to compute `(a/b) * (c/d)` with all components nonzero and
no overflow of the residue products, the source first pairwise reduces
`gcd(a,b)`, `gcd(a,d)`, `gcd(c,b)`, `gcd(c,d)` in sequence
(`reduceBeforeMultiply`), then multiplies the remaining residues — which are
pairwise coprime (each numerator residue against each denominator residue) —
to form the result's numerator and denominator (reduce-before-multiply). -/
theorem mul_reduce_before_multiply (a b c d : Nat)
    (ha : a ≠ 0) (hb : b ≠ 0) (hc : c ≠ 0) (hd : d ≠ 0)
    (hovN : (reduceBeforeMultiply a c b d).1.1 *
        (reduceBeforeMultiply a c b d).1.2 ≤ uint32Max)
    (hovD : (reduceBeforeMultiply a c b d).2.1 *
        (reduceBeforeMultiply a c b d).2.2 ≤ uint32Max) :
    Rational.mul ⟨a, b⟩ ⟨c, d⟩ =
      some ⟨(reduceBeforeMultiply a c b d).1.1 * (reduceBeforeMultiply a c b d).1.2,
            (reduceBeforeMultiply a c b d).2.1 * (reduceBeforeMultiply a c b d).2.2⟩ ∧
    Nat.Coprime (reduceBeforeMultiply a c b d).1.1 (reduceBeforeMultiply a c b d).2.1 ∧
    Nat.Coprime (reduceBeforeMultiply a c b d).1.1 (reduceBeforeMultiply a c b d).2.2 ∧
    Nat.Coprime (reduceBeforeMultiply a c b d).1.2 (reduceBeforeMultiply a c b d).2.1 ∧
    Nat.Coprime (reduceBeforeMultiply a c b d).1.2 (reduceBeforeMultiply a c b d).2.2 := by
  obtain ⟨k, hk, hn, hdp, hN1, hN2, hD1, hD2, cp11, cp12, cp21, cp22, cptot⟩ :=
    reduceBeforeMultiply_spec a c b d ha hc hb hd
  exact ⟨mkRational_some a c b d ha hc hb hd hovN hovD, cp11, cp12, cp21, cp22⟩

/-- Witness for C2 (amended) at (2/3) * (2/5): residues (2,2),(3,5), result 4/15. -/
theorem mul_reduce_before_multiply_witness :
    Rational.mul ⟨2, 3⟩ ⟨2, 5⟩ =
      some ⟨(reduceBeforeMultiply 2 2 3 5).1.1 * (reduceBeforeMultiply 2 2 3 5).1.2,
            (reduceBeforeMultiply 2 2 3 5).2.1 * (reduceBeforeMultiply 2 2 3 5).2.2⟩ :=
  (mul_reduce_before_multiply 2 3 2 5 (by decide) (by decide) (by decide) (by decide)
    (by decide) (by decide)).1

/-- C3: with nonzero operands, if multiplying the residues that remain after
the pairwise reductions would exceed the numeric range (`uint32Max`), the
operation fails loudly (`none`, i.e. the C++ `assert` fires); and any value
it does produce is the exact, in-range residue product — never a wrapped or
saturated one. -/
theorem overflow_crashes_never_wraps (num1 num2 den1 den2 : Nat)
    (h1 : num1 ≠ 0) (h2 : num2 ≠ 0) (h3 : den1 ≠ 0) (h4 : den2 ≠ 0) :
    (uint32Max < (reduceBeforeMultiply num1 num2 den1 den2).1.1 *
          (reduceBeforeMultiply num1 num2 den1 den2).1.2 ∨
      uint32Max < (reduceBeforeMultiply num1 num2 den1 den2).2.1 *
          (reduceBeforeMultiply num1 num2 den1 den2).2.2 →
      mkRational num1 num2 den1 den2 = none) ∧
    (∀ r, mkRational num1 num2 den1 den2 = some r →
      r.numerator = (reduceBeforeMultiply num1 num2 den1 den2).1.1 *
          (reduceBeforeMultiply num1 num2 den1 den2).1.2 ∧
      r.denominator = (reduceBeforeMultiply num1 num2 den1 den2).2.1 *
          (reduceBeforeMultiply num1 num2 den1 den2).2.2 ∧
      r.numerator ≤ uint32Max ∧ r.denominator ≤ uint32Max) := by
  obtain ⟨k, hk, hn, hd, hN1, hN2, hD1, hD2, cp11, cp12, cp21, cp22, cptot⟩ :=
    reduceBeforeMultiply_spec num1 num2 den1 den2 h1 h2 h3 h4
  constructor
  · intro hov
    rw [mkRational_def, if_neg (by simp [h1, h2, h3, h4]), if_neg]
    intro hguard
    obtain ⟨hA, hB⟩ := hguard
    rw [Nat.le_div_iff_mul_le (Nat.pos_of_ne_zero hN1), Nat.mul_comm] at hA
    rw [Nat.le_div_iff_mul_le (Nat.pos_of_ne_zero hD1), Nat.mul_comm] at hB
    omega
  · intro r hr
    rw [mkRational_def, if_neg (by simp [h1, h2, h3, h4])] at hr
    split at hr
    · split at hr
      · rename_i hguard _
        obtain ⟨hA, hB⟩ := hguard
        rw [Nat.le_div_iff_mul_le (Nat.pos_of_ne_zero hN1), Nat.mul_comm] at hA
        rw [Nat.le_div_iff_mul_le (Nat.pos_of_ne_zero hD1), Nat.mul_comm] at hB
        obtain rfl : (⟨(reduceBeforeMultiply num1 num2 den1 den2).1.1 *
            (reduceBeforeMultiply num1 num2 den1 den2).1.2,
            (reduceBeforeMultiply num1 num2 den1 den2).2.1 *
            (reduceBeforeMultiply num1 num2 den1 den2).2.2⟩ : Rational) = r :=
          Option.some.inj hr
        exact ⟨rfl, rfl, hA, hB⟩
      · exact absurd hr (by simp)
    · exact absurd hr (by simp)

/-- Witness for C3: 2^31 * 2^31 cannot be represented, so the private
constructor crashes (models the `assert` failing) instead of wrapping. -/
theorem overflow_crashes_never_wraps_witness :
    mkRational 2147483648 2147483648 3 5 = none :=
  (overflow_crashes_never_wraps 2147483648 2147483648 3 5
    (by decide) (by decide) (by decide) (by decide)).1 (Or.inl (by decide))

/-- C4: any zero numerator or denominator among the operands makes the
private constructor return the canonical zero `{0,0}` before the reduction
algorithm runs; multiplying any rational by a zero-valued rational yields
`{0,0}`; and `Rational(0, 5) == Rational(0, 0)` (both construct `{0,0}` and
`operator==` compares component-wise). -/
theorem zero_operand_collapses :
    (∀ num1 num2 den1 den2 : Nat,
      num1 = 0 ∨ num2 = 0 ∨ den1 = 0 ∨ den2 = 0 →
      mkRational num1 num2 den1 den2 = some ⟨0, 0⟩) ∧
    (∀ a b : Rational, b.numerator = 0 ∨ b.denominator = 0 →
      Rational.mul a b = some ⟨0, 0⟩) ∧
    (∀ a b : Rational, a.numerator = 0 ∨ a.denominator = 0 →
      Rational.mul a b = some ⟨0, 0⟩) ∧
    rationalCtor 0 5 = some ⟨0, 0⟩ ∧ rationalCtor 0 0 = some ⟨0, 0⟩ ∧
    Rational.eqOp ⟨0, 0⟩ ⟨0, 0⟩ = true := by
  refine ⟨fun num1 num2 den1 den2 h => mkRational_zero num1 num2 den1 den2 h,
    fun a b h => mkRational_zero _ _ _ _ ?_,
    fun a b h => mkRational_zero _ _ _ _ ?_,
    by decide, by decide, by decide⟩
  · rcases h with h | h
    · exact Or.inr (Or.inl h)
    · exact Or.inr (Or.inr (Or.inr h))
  · rcases h with h | h
    · exact Or.inl h
    · exact Or.inr (Or.inr (Or.inl h))

/-- Witness for C4: a zero operand collapses concrete products to {0,0}. -/
theorem zero_operand_collapses_witness :
    mkRational 0 7 3 9 = some ⟨0, 0⟩ ∧
    Rational.mul ⟨5, 7⟩ ⟨0, 0⟩ = some ⟨0, 0⟩ :=
  ⟨zero_operand_collapses.1 0 7 3 9 (Or.inl rfl),
   zero_operand_collapses.2.1 ⟨5, 7⟩ ⟨0, 0⟩ (Or.inl rfl)⟩

/-- C5 (counterexample): with `b` the canonical zero `{0,0}` — a `Rational`
value, and one that triggers no overflow anywhere — the round trip
`(a * b) * b.inverse()` collapses to `{0,0}` and does not return `a = 1/2`. -/
theorem roundtrip_fails_for_zero_b :
    Rational.mul ⟨1, 2⟩ ⟨0, 0⟩ = some ⟨0, 0⟩ ∧
    Rational.inverse ⟨0, 0⟩ = some ⟨0, 0⟩ ∧
    Rational.mul ⟨0, 0⟩ ⟨0, 0⟩ = some ⟨0, 0⟩ ∧
    (⟨0, 0⟩ : Rational) ≠ ⟨1, 2⟩ := by decide

/-- C5 (amended): for every `a` that the constructors/operators can produce
(reduced with nonzero fields, or the canonical zero) and every `b` with
nonzero numerator and denominator, `(a * b) * b.inverse() == a`
component-wise whenever no intermediate overflow occurs (i.e. whenever the
two multiplications and the inverse all produce values). -/
theorem mul_inverse_roundtrip (a b : Rational)
    (ha : (a.numerator ≠ 0 ∧ a.denominator ≠ 0 ∧
        Nat.gcd a.numerator a.denominator = 1) ∨
      (a.numerator = 0 ∧ a.denominator = 0))
    (hbn : b.numerator ≠ 0) (hbd : b.denominator ≠ 0)
    (p bi q : Rational)
    (hp : Rational.mul a b = some p)
    (hbi : Rational.inverse b = some bi)
    (hq : Rational.mul p bi = some q) : q = a := by
  rcases ha with ⟨han, had, hacop⟩ | ⟨han, had⟩
  · -- main case: a is a nonzero reduced fraction
    obtain ⟨k1, hk1, hfn1, hfd1, hpn, hpd, hpcop⟩ :=
      mkRational_factor a.numerator b.numerator a.denominator b.denominator
        han hbn had hbd p hp
    obtain ⟨k0, hk0, hfn0, hfd0, hbin, hbid, hbicop⟩ :=
      mkRational_factor b.denominator 1 b.numerator 1
        hbd one_ne_zero hbn one_ne_zero bi hbi
    obtain ⟨k2, hk2, hfn2, hfd2, hqn, hqd, hqcop⟩ :=
      mkRational_factor p.numerator bi.numerator p.denominator bi.denominator
        hpn hbin hpd hbid q hq
    have key : q.numerator * a.denominator = a.numerator * q.denominator := by
      have H1 : (a.numerator * b.numerator : ℤ) = p.numerator * k1 := by
        exact_mod_cast hfn1
      have H2 : (a.denominator * b.denominator : ℤ) = p.denominator * k1 := by
        exact_mod_cast hfd1
      have H3 : (p.numerator * bi.numerator : ℤ) = q.numerator * k2 := by
        exact_mod_cast hfn2
      have H4 : (p.denominator * bi.denominator : ℤ) = q.denominator * k2 := by
        exact_mod_cast hfd2
      have H5 : (b.denominator : ℤ) = bi.numerator * k0 := by
        exact_mod_cast (by simpa using hfn0 : b.denominator = bi.numerator * k0)
      have H6 : (b.numerator : ℤ) = bi.denominator * k0 := by
        exact_mod_cast (by simpa using hfd0 : b.numerator = bi.denominator * k0)
      have hcancel : ((k2 : ℤ) * k0 * b.numerator) ≠ 0 := by
        have c2 : (k2 : ℤ) ≠ 0 := Int.natCast_ne_zero.mpr hk2
        have c0 : (k0 : ℤ) ≠ 0 := Int.natCast_ne_zero.mpr hk0
        have cb : (b.numerator : ℤ) ≠ 0 := Int.natCast_ne_zero.mpr hbn
        exact mul_ne_zero (mul_ne_zero c2 c0) cb
      have hscaled : ((q.numerator : ℤ) * a.denominator) * (k2 * k0 * b.numerator) =
          ((a.numerator : ℤ) * q.denominator) * (k2 * k0 * b.numerator) := by
        linear_combination
          (-((a.denominator : ℤ) * b.numerator * p.numerator)) * H5
          - ((a.denominator : ℤ) * b.numerator * k0) * H3
          + ((p.numerator : ℤ) * b.numerator) * H2
          + ((p.numerator : ℤ) * k1 * p.denominator) * H6
          + ((p.numerator : ℤ) * k1 * k0) * H4
          - ((q.denominator : ℤ) * k2 * k0) * H1
      exact_mod_cast mul_right_cancel₀ hcancel hscaled
    have hdvd1 : q.numerator ∣ a.numerator := by
      have hmul : q.numerator ∣ a.numerator * q.denominator := ⟨a.denominator, key.symm⟩
      exact hqcop.dvd_of_dvd_mul_right hmul
    have hdvd2 : a.numerator ∣ q.numerator := by
      have hmul : a.numerator ∣ q.numerator * a.denominator := ⟨q.denominator, key⟩
      exact (Nat.Coprime.dvd_of_dvd_mul_right hacop hmul)
    have hnum : q.numerator = a.numerator := Nat.dvd_antisymm hdvd1 hdvd2
    have hden : q.denominator = a.denominator := by
      rw [hnum] at key
      exact (Nat.eq_of_mul_eq_mul_left (Nat.pos_of_ne_zero han) key).symm
    exact Rational.ext q a hnum hden
  · -- a is the canonical zero: everything collapses to {0,0}
    have hp0 : Rational.mul a b = some ⟨0, 0⟩ := mkRational_zero _ _ _ _ (Or.inl han)
    have hpz : p = ⟨0, 0⟩ := by
      rw [hp] at hp0
      exact Option.some.inj hp0
    have hq0 : Rational.mul p bi = some ⟨0, 0⟩ :=
      mkRational_zero _ _ _ _ (Or.inl (by rw [hpz]))
    have hqz : q = ⟨0, 0⟩ := by
      rw [hq] at hq0
      exact Option.some.inj hq0
    rw [hqz]
    exact Rational.ext ⟨0, 0⟩ a han.symm had.symm

/-- Witness for C5 (amended) at a = 1/2, b = 2/3: the round trip returns a. -/
theorem mul_inverse_roundtrip_witness :
    Rational.mul ⟨1, 2⟩ ⟨2, 3⟩ = some ⟨1, 3⟩ ∧
    Rational.inverse ⟨2, 3⟩ = some ⟨3, 2⟩ ∧
    Rational.mul ⟨1, 3⟩ ⟨3, 2⟩ = some ⟨1, 2⟩ ∧
    (⟨1, 2⟩ : Rational) = ⟨1, 2⟩ :=
  ⟨by decide, by decide, by decide,
   mul_inverse_roundtrip ⟨1, 2⟩ ⟨2, 3⟩
     (Or.inl ⟨by decide, by decide, by decide⟩) (by decide) (by decide)
     ⟨1, 3⟩ ⟨3, 2⟩ ⟨1, 2⟩ (by decide) (by decide) (by decide)⟩

/-- C6 (counterexample): `Rational(0, 5)` has denominator argument `5 ≠ 0`
but constructs the canonical zero `{0,0}`, whose component gcd is `0`, not
`1`; so `d ≠ 0` alone does not give a reduced result. -/
theorem ctor_zero_numerator_unreduced :
    rationalCtor 0 5 = some ⟨0, 0⟩ ∧ Nat.gcd (0 : Nat) 0 ≠ 1 := by decide

/-- C6 (amended): for every numerator `n ≠ 0` and denominator `d ≠ 0` (both
representable in the integer type), the constructed `Rational(n, d)`
satisfies `gcd(numerator, denominator) == 1`. -/
theorem ctor_nonzero_reduced (n d : Nat) (hn : n ≠ 0) (hd : d ≠ 0)
    (hbn : n ≤ uint32Max) (hbd : d ≤ uint32Max) :
    ∃ r, rationalCtor n d = some r ∧ Nat.gcd r.numerator r.denominator = 1 := by
  refine ⟨⟨n / Nat.gcd n d, d / Nat.gcd n d⟩, rationalCtor_eq n d hn hd hbn hbd, ?_⟩
  exact Nat.coprime_div_gcd_div_gcd (Nat.gcd_pos_of_pos_left d (Nat.pos_of_ne_zero hn))

/-- Witness for C6 (amended): Rational(6, 4) is constructed reduced. -/
theorem ctor_nonzero_reduced_witness :
    ∃ r, rationalCtor 6 4 = some r ∧ Nat.gcd r.numerator r.denominator = 1 :=
  ctor_nonzero_reduced 6 4 (by decide) (by decide) (by decide) (by decide)

/-- C7: for every frame, bounds and sample aspect ratio, `FitVideoToRegion`
with mode `Stretch` returns `src = frame` (no cropping) and `dest = bounds`
exactly; the display aspect ratio is not consulted at all. -/
theorem fitVideoToRegion_stretch (frame bounds : ShakaRect) (sar : Rational) :
    FitVideoToRegion frame bounds sar VideoFillMode.Stretch = (frame, bounds) := rfl

/-- C8: under every sequence of `AddClient`/`RemoveClient` calls the
registered set stays de-duplicated and insertion-ordered: adding an
already-registered client is a no-op leaving exactly one registration,
removing an unregistered client is a no-op, and a fired `On*` event is
delivered to the currently registered clients in registration order,
exactly once per registered client. -/
theorem clientList_dedup_ordered (ops : List media.ClientOp) :
    (media.clientsAfter ops).Nodup ∧
    (∀ c, c ∈ media.clientsAfter ops →
      media.AddClient (media.clientsAfter ops) c = media.clientsAfter ops) ∧
    (∀ c, c ∉ media.clientsAfter ops →
      media.RemoveClient (media.clientsAfter ops) c = media.clientsAfter ops) ∧
    media.fireEvent (media.clientsAfter ops) = media.clientsAfter ops ∧
    (∀ c, c ∈ media.clientsAfter ops →
      List.count c (media.fireEvent (media.clientsAfter ops)) = 1) := by
  have hnodup : (media.clientsAfter ops).Nodup :=
    media.foldl_applyOp_nodup ops [] List.nodup_nil
  refine ⟨hnodup, ?_, ?_, rfl, ?_⟩
  · intro c hc
    simp [media.AddClient, hc]
  · intro c hc
    exact List.erase_of_not_mem hc
  · intro c hc
    exact List.count_eq_one_of_mem hnodup hc

/-- Witness for C8 on the sequence add 1, add 2, re-add 1, add 3, remove 2,
whose resulting registration list is [1, 3]. -/
theorem clientList_dedup_ordered_witness :
    (media.clientsAfter media.demoOps).Nodup ∧
    media.AddClient (media.clientsAfter media.demoOps) 1 =
      media.clientsAfter media.demoOps ∧
    media.RemoveClient (media.clientsAfter media.demoOps) 9 =
      media.clientsAfter media.demoOps ∧
    List.count 1 (media.fireEvent (media.clientsAfter media.demoOps)) = 1 :=
  ⟨(clientList_dedup_ordered media.demoOps).1,
   (clientList_dedup_ordered media.demoOps).2.1 1 (by decide),
   (clientList_dedup_ordered media.demoOps).2.2.1 9 (by decide),
   (clientList_dedup_ordered media.demoOps).2.2.2.2 1 (by decide)⟩

/-- C9: `VideoReadyState` has underlying values NotAttached = -1,
HaveNothing = 0, HaveMetadata = 1, HaveCurrentData = 2, HaveFutureData = 3,
HaveEnoughData = 4, totally ordered by numeric comparison in that order. -/
theorem videoReadyState_total_order :
    media.VideoReadyState.toInt media.VideoReadyState.NotAttached = -1 ∧
    media.VideoReadyState.toInt media.VideoReadyState.HaveNothing = 0 ∧
    media.VideoReadyState.toInt media.VideoReadyState.HaveMetadata = 1 ∧
    media.VideoReadyState.toInt media.VideoReadyState.HaveCurrentData = 2 ∧
    media.VideoReadyState.toInt media.VideoReadyState.HaveFutureData = 3 ∧
    media.VideoReadyState.toInt media.VideoReadyState.HaveEnoughData = 4 ∧
    media.VideoReadyState.toInt media.VideoReadyState.NotAttached <
      media.VideoReadyState.toInt media.VideoReadyState.HaveNothing ∧
    media.VideoReadyState.toInt media.VideoReadyState.HaveNothing <
      media.VideoReadyState.toInt media.VideoReadyState.HaveMetadata ∧
    media.VideoReadyState.toInt media.VideoReadyState.HaveMetadata <
      media.VideoReadyState.toInt media.VideoReadyState.HaveCurrentData ∧
    media.VideoReadyState.toInt media.VideoReadyState.HaveCurrentData <
      media.VideoReadyState.toInt media.VideoReadyState.HaveFutureData ∧
    media.VideoReadyState.toInt media.VideoReadyState.HaveFutureData <
      media.VideoReadyState.toInt media.VideoReadyState.HaveEnoughData := by
  decide

/-- C10: `Rational::truncate()` divides numerator by denominator with no
guard; whenever `denominator ≠ 0` it returns the truncated integer quotient,
but on the canonical zero `{0,0}` — e.g. the result of `Rational(0, 5)` —
it divides by zero (undefined behaviour, modelled as `none`), so a
well-defined result requires `denominator ≠ 0`. -/
theorem truncate_requires_nonzero_den :
    (∀ r : Rational, r.denominator ≠ 0 →
      Rational.truncate r = some (r.numerator / r.denominator)) ∧
    Rational.truncate ⟨0, 0⟩ = none ∧
    rationalCtor 0 5 = some ⟨0, 0⟩ := by
  refine ⟨fun r h => ?_, by decide, by decide⟩
  simp [Rational.truncate, h]

/-- Witness for C10: truncate(7/2) = 3. -/
theorem truncate_requires_nonzero_den_witness :
    Rational.truncate ⟨7, 2⟩ = some 3 :=
  truncate_requires_nonzero_den.1 ⟨7, 2⟩ (by decide)

end Shaka
